import Mathlib

/-!
Shallow embedding of the offline plugin-chain rendering host of this
repository (src/vst_host/src/main.cpp; the interactive variant lives in
src/vst_host/src/gui_main.cpp).  JUCE library services (filesystem access,
plugin-format backends, audio codecs, path normalisation) are external
collaborators and are modelled as explicit function parameters; the logic
written in the repository itself (path cleaning, manifest resolution, plugin
type selection, preset application, the chain-setup loop, the render loop,
writer selection and argument parsing) is translated directly from the
source.  Strings are modelled as lists of characters.
-/

/-- JUCE CharacterFunctions::isWhitespace: a space, or a control character
with code point between 9 and 13. -/
def isJuceWhitespace (c : Char) : Bool :=
  c = ' ' || (9 ≤ c.toNat && c.toNat ≤ 13)

/-- JUCE String::trim: remove leading and trailing whitespace. -/
def trimChars (s : List Char) : List Char :=
  ((s.dropWhile isJuceWhitespace).reverse.dropWhile isJuceWhitespace).reverse

/-- The double-quote character (code point 34). -/
def dquoteChar : Char := Char.ofNat 34

/-- The single-quote character (code point 39). -/
def squoteChar : Char := Char.ofNat 39

/-- One unquoting step of resolvePath (main.cpp lines 64-67): when the
string has length at least 2 and both starts and ends with the quote
character q, drop the first and last characters (substring(1, length-1))
and trim the remainder; otherwise leave the string unchanged. -/
def unquoteWith (q : Char) (s : List Char) : List Char :=
  if 2 ≤ s.length ∧ s.head? = some q ∧ s.getLast? = some q then
    trimChars ((s.drop 1).take (s.length - 2))
  else s

/-- The cleaning phase of resolvePath (main.cpp lines 63-67): trim, then
strip matching double quotes, then matching single quotes. -/
def cleanPath (s : List Char) : List Char :=
  unquoteWith squoteChar (unquoteWith dquoteChar (trimChars s))

/-- Embeds resolvePath (main.cpp lines 61-72).  The JUCE File operations
are collaborator parameters: isAbsolutePath models File::isAbsolutePath,
fullPathOf models File(p).getFullPathName() on an absolute p, and
childPathOf models base.getChildFile(p).getFullPathName(). -/
def resolvePath (isAbsolutePath : List Char → Bool)
    (fullPathOf : List Char → List Char)
    (childPathOf : List Char → List Char → List Char)
    (baseDir path : List Char) : List Char :=
  let cleaned := cleanPath path
  if isAbsolutePath cleaned then fullPathOf cleaned
  else childPathOf baseDir cleaned

/-- Embeds struct ChainSlot (main.cpp lines 5-10). -/
structure ChainSlot where
  pluginPath : List Char := []
  presetPath : List Char := []
  bypass : Bool := false
  deriving DecidableEq, Repr

/-- One element of the manifest plugins array as loadChain reads it:
getProperty yields the empty string for a missing path or preset value,
and bypass is the bool cast of the bypass property. -/
structure RawEntry where
  path : List Char := []
  preset : List Char := []
  bypass : Bool := false
  deriving DecidableEq, Repr

/-- The parsed chain JSON exactly as loadChain inspects it: invalid or
non-object JSON, an object whose plugins property is not an array, or the
plugins array itself, with none standing for a non-object array element. -/
inductive ManifestData where
  | notObject : ManifestData
  | noPluginsArray : ManifestData
  | plugins : List (Option RawEntry) → ManifestData
  deriving DecidableEq, Repr

/-- The slot built from one object entry of the plugins array (main.cpp
lines 107-114): each path is resolved only when the raw value is
non-empty. -/
def entrySlot (isAbsolutePath : List Char → Bool)
    (fullPathOf : List Char → List Char)
    (childPathOf : List Char → List Char → List Char)
    (baseDir : List Char) (e : RawEntry) : ChainSlot :=
  { pluginPath :=
      if e.path ≠ [] then
        resolvePath isAbsolutePath fullPathOf childPathOf baseDir e.path
      else []
    presetPath :=
      if e.preset ≠ [] then
        resolvePath isAbsolutePath fullPathOf childPathOf baseDir e.preset
      else []
    bypass := e.bypass }

/-- Embeds loadChain (main.cpp lines 74-126).  The error strings follow the
source messages.  A slot is appended only when its resolved plugin path is
non-empty, exactly as the source tests slot.pluginPath.isNotEmpty(). -/
def loadChain (isAbsolutePath : List Char → Bool)
    (fullPathOf : List Char → List Char)
    (childPathOf : List Char → List Char → List Char)
    (baseDir : List Char) : ManifestData → Except (List Char) (List ChainSlot)
  | .notObject => .error ("Chain JSON is invalid.").data
  | .noPluginsArray => .error ("Chain JSON missing plugins array.").data
  | .plugins entries =>
    if entries.isEmpty then .error ("Chain JSON has no plugins.").data
    else
      let slots := entries.foldl
        (fun acc e? =>
          match e? with
          | none => acc
          | some e =>
            let slot := entrySlot isAbsolutePath fullPathOf childPathOf baseDir e
            if slot.pluginPath ≠ [] then acc ++ [slot] else acc) []
      if slots.isEmpty then .error ("Chain JSON has no valid plugin paths.").data
      else .ok slots

/-- A live plugin instance, observed through the sequence of raw state
blobs that have been handed to its state-restore entry point
(setStateInformation).  A freshly created instance has made no calls. -/
structure InstanceState where
  stateCalls : List (List UInt8) := []
  deriving DecidableEq, Repr

/-- Models AudioPluginInstance::setStateInformation receiving one raw
binary blob verbatim. -/
def setStateInformation (i : InstanceState) (d : List UInt8) : InstanceState :=
  { stateCalls := i.stateCalls ++ [d] }

/-- The filesystem as applyPreset consults it: File::existsAsFile and
File::loadFileAsData (none when the read fails). -/
structure FS where
  existsAsFile : List Char → Bool
  loadFileAsData : List Char → Option (List UInt8)

/-- Embeds applyPreset (main.cpp lines 167-181): returns the success flag
together with the possibly updated instance. -/
def applyPreset (fs : FS) (inst : InstanceState) (presetPath : List Char) :
    Bool × InstanceState :=
  if presetPath = [] then (true, inst)
  else if fs.existsAsFile presetPath = false then (false, inst)
  else
    match fs.loadFileAsData presetPath with
    | none => (false, inst)
    | some d => (true, setStateInformation inst d)

/-- The warning printed by main (main.cpp line 283) when a preset fails to
apply. -/
def presetWarning (presetPath : List Char) : List Char :=
  ("Warning: failed to apply preset ").data ++ presetPath

/-- Embeds the chain-setup loop of main (main.cpp lines 258-286): bypassed
slots are skipped, a failed plugin load aborts with exit code 5, a preset is
applied only when the slot names one, a failed preset application only adds
a warning, and the instance is appended to the list of live instances.  The
loadPlugin call with its fixed sample rate, block size and channel count is
the collaborator parameter load (none models a null instance). -/
def setupChain (fs : FS) (load : List Char → Option InstanceState) :
    List ChainSlot → Except Nat (List InstanceState × List (List Char))
  | [] => .ok ([], [])
  | s :: rest =>
    if s.bypass then setupChain fs load rest
    else
      match load s.pluginPath with
      | none => .error 5
      | some inst =>
        let pr : InstanceState × List (List Char) :=
          if s.presetPath ≠ [] then
            let a := applyPreset fs inst s.presetPath
            (a.2, if a.1 then [] else [presetWarning s.presetPath])
          else (inst, [])
        match setupChain fs load rest with
        | .error c => .error c
        | .ok (l, w) => .ok (pr.1 :: l, pr.2 ++ w)

/-- The non-bypassed slots, in declared order (the filtering done by the
continue at main.cpp lines 261-262). -/
def liveSlots (slots : List ChainSlot) : List ChainSlot :=
  slots.filter (fun s => !s.bypass)

/-- The instance a non-bypassed slot contributes: the loaded instance,
after its preset has been applied when the slot names one. -/
def slotInst (fs : FS) (load : List Char → Option InstanceState)
    (s : ChainSlot) : Option InstanceState :=
  (load s.pluginPath).map
    (fun i => if s.presetPath ≠ [] then (applyPreset fs i s.presetPath).2 else i)

/-- The per-block plugin chain of main (main.cpp lines 333-334): the block
buffer is passed through each live instance in list order, each instance
transforming it in place before the next. -/
def chainBlock {β : Type} (proc : InstanceState → β → β)
    (instances : List InstanceState) (b : β) : β :=
  instances.foldl (fun buf i => proc i buf) b

/-- The segment lengths of the render loop of main (main.cpp lines
325-337), driven by the remaining frame count (totalSamples - position).
Each iteration takes min(blockSize, remaining) frames and advances by that
amount.  The source loop would not terminate for blockSize = 0, which
parseArgs makes unreachable by clamping the block size to at least 64; the
guard returning [] there only serves totality. -/
def renderSegments (blockSize : Nat) : Nat → List Nat
  | 0 => []
  | r + 1 =>
    if blockSize = 0 then []
    else
      min blockSize (r + 1) :: renderSegments blockSize (r + 1 - min blockSize (r + 1))
  termination_by r => r
  decreasing_by omega

/-- Embeds the render loop of main (main.cpp lines 325-337) in full, as the
sequence of writes the loop appends to the output.  Per iteration: the
block length is min(blockSize, totalSamples - position); the cleared
buffer filled by reader->read with that many frames at the current
position is the collaborator value read position block; the buffer is then
passed through every live instance in order (chainBlock, lines 333-334);
writer->writeFromAudioSampleBuffer (line 335) appends the processed buffer
with that block length, and position advances by the block length.  The
unused midi event buffer is cleared each iteration and carries no data, so
it does not appear.  As for renderSegments, the empty result on
blockSize = 0 only serves totality of a loop the source never runs. -/
def renderLoop {β : Type} (proc : InstanceState → β → β)
    (read : Nat → Nat → β) (instances : List InstanceState)
    (blockSize total position : Nat) : List (β × Nat) :=
  if _hp : position < total then
    if _hb : blockSize = 0 then []
    else
      (chainBlock proc instances
          (read position (min blockSize (total - position))),
        min blockSize (total - position)) ::
        renderLoop proc read instances blockSize total
          (position + min blockSize (total - position))
  else []
  termination_by total - position
  decreasing_by omega

/-- Pairs each segment length with the stream position at which the loop
reads it: the first segment starts at the given position and each later
segment starts where the previous one ended. -/
def withStarts : Nat → List Nat → List (Nat × Nat)
  | _, [] => []
  | pos, l :: ls => (pos, l) :: withStarts (pos + l) ls

/-- A plugin-format backend as loadPlugin consults it (a JUCE collaborator):
the cheap compatibility check and the per-file type enumeration. -/
structure FormatBackend (T : Type) where
  fileMightContainThisPluginType : List Char → Bool
  findAllTypesForFile : List Char → List T

/-- Embeds the type-accumulation loop of loadPlugin (main.cpp lines
135-141): every backend passing the compatibility check appends its
discovered types to the shared list. -/
def resolveTypes {T : Type} (formats : List (FormatBackend T))
    (file : List Char) : List T :=
  formats.foldl
    (fun acc f =>
      if f.fileMightContainThisPluginType file then acc ++ f.findAllTypesForFile file
      else acc) []

/-- Embeds loadPlugin (main.cpp lines 128-165).  createPluginInstance and
the preparation calls (setNonRealtime, bus-layout assignment,
prepareToPlay, reset) are JUCE collaborators: createInstance returns none
on instantiation failure with diagnostic createError, and prepareInstance
is the effect of the preparation calls on the fresh instance. -/
def loadPlugin {T I : Type} (formats : List (FormatBackend T))
    (createInstance : T → Option I) (createError : List Char)
    (prepareInstance : I → I) (file : List Char) : Except (List Char) I :=
  match resolveTypes formats file with
  | [] => .error (("No plugin types found for ").data ++ file)
  | t :: _ =>
    match createInstance t with
    | none => .error createError
    | some inst => .ok (prepareInstance inst)

/-- The reader attributes main consumes from the opened input stream
(JUCE AudioFormatReader); the input bit depth is carried by the reader but
never forwarded to the writer. -/
structure ReaderInfo (α : Type) where
  sampleRate : α
  numChannels : Nat
  bitsPerSample : Nat
  lengthInSamples : Nat

/-- The arguments main passes to createWriterFor (main.cpp lines 312-313). -/
structure WriterConfig (α : Type) where
  sampleRate : α
  numChannels : Nat
  bitsPerSample : Nat
  deriving DecidableEq, Repr

/-- The writer configuration built by main: the sample rate and channel
count of the input reader, with the bit depth fixed at 16. -/
def writerConfigOf {α : Type} (r : ReaderInfo α) : WriterConfig α :=
  { sampleRate := r.sampleRate, numChannels := r.numChannels, bitsPerSample := 16 }

/-- The fallback extension used when no format matches (main.cpp line 304). -/
def wavExt : List Char := ("wav").data

/-- The output-format choice of main (main.cpp lines 302-304):
findFormatForFileExtension on the output extension, falling back to the
wave format when no format matches. -/
def selectOutputFormat {F : Type} (findFormatForFileExtension : List Char → Option F)
    (ext : List Char) : Option F :=
  match findFormatForFileExtension ext with
  | some f => some f
  | none => findFormatForFileExtension wavExt

/-- Embeds the writer-creation phase of main (main.cpp lines 299-319):
no available format is a writer error with exit code 6, as is a null
writer from createWriterFor; otherwise the writer is produced from the
chosen format and the configuration built from the reader. -/
def setupWriter {F W α : Type} (findFormatForFileExtension : List Char → Option F)
    (createWriterFor : F → WriterConfig α → Option W)
    (ext : List Char) (r : ReaderInfo α) : Except Nat W :=
  match selectOutputFormat findFormatForFileExtension ext with
  | none => .error 6
  | some f =>
    match createWriterFor f (writerConfigOf r) with
    | none => .error 6
    | some w => .ok w

/-- Embeds struct Args (main.cpp lines 12-18) with its default block size
of 512. -/
structure Args where
  input : List Char := []
  output : List Char := []
  chain : List Char := []
  blockSize : Int := 512
  deriving DecidableEq, Repr

/-- The digit-accumulation phase of JUCE String::getIntValue. -/
def digitsValue : List Char → Nat → Nat
  | c :: rest, acc =>
    if c.isDigit then digitsValue rest (acc * 10 + (c.toNat - 48)) else acc
  | [], acc => acc

/-- Models JUCE String::getIntValue: skip leading whitespace, honour one
leading minus sign, then read decimal digits up to the first non-digit
(0 when there are none). -/
def getIntValueJuce (s : List Char) : Int :=
  match s.dropWhile isJuceWhitespace with
  | c :: rest =>
    if c = '-' then -(digitsValue rest 0 : Int)
    else digitsValue (c :: rest) 0
  | [] => 0

/-- The option-scanning loop of parseArgs (main.cpp lines 28-56), one token
at a time: help returns false immediately, each value option consumes the
following token when one exists, the block value is clamped below at 64
(jmax), and unknown tokens are ignored. -/
def parseLoop (getIntValue : List Char → Int) :
    List (List Char) → Args → Args × Bool
  | [], a => (a, true)
  | [x], a =>
    if x = ("--help").data ∨ x = ("-h").data then (a, false) else (a, true)
  | x :: v :: rest2, a =>
    if x = ("--help").data ∨ x = ("-h").data then (a, false)
    else if x = ("--input").data then parseLoop getIntValue rest2 { a with input := v }
    else if x = ("--output").data then parseLoop getIntValue rest2 { a with output := v }
    else if x = ("--chain").data then parseLoop getIntValue rest2 { a with chain := v }
    else if x = ("--block").data then
      parseLoop getIntValue rest2 { a with blockSize := max 64 (getIntValue v) }
    else parseLoop getIntValue (v :: rest2) a

/-- Embeds parseArgs (main.cpp lines 26-59): scan the tokens after the
program name, then require non-empty input, output and chain values. -/
def parseArgs (getIntValue : List Char → Int) (argv : List (List Char)) :
    Args × Bool :=
  let r := parseLoop getIntValue (argv.drop 1) {}
  (r.1, r.2 && (!r.1.input.isEmpty && !r.1.output.isEmpty && !r.1.chain.isEmpty))

/-- The chain phase of main (main.cpp lines 233-286): manifest resolution
failure exits with code 4 before any plugin load is attempted; otherwise
the resolved slots are materialised by the setup loop. -/
def chainPhase (isAbsolutePath : List Char → Bool)
    (fullPathOf : List Char → List Char)
    (childPathOf : List Char → List Char → List Char)
    (baseDir : List Char) (fs : FS) (load : List Char → Option InstanceState)
    (m : ManifestData) : Except Nat (List InstanceState × List (List Char)) :=
  match loadChain isAbsolutePath fullPathOf childPathOf baseDir m with
  | .error _ => .error 4
  | .ok slots => setupChain fs load slots

/-- C5: applyPreset succeeds without touching the instance when the preset
path is empty; it fails without touching the instance when the file does
not exist or cannot be read as a binary blob; and on success it hands the
raw file bytes verbatim to the state-restore entry point. -/
theorem c5_apply_preset :
    (∀ (fs : FS) (i : InstanceState), applyPreset fs i [] = (true, i))
    ∧ (∀ (fs : FS) (i : InstanceState) (p : List Char), p ≠ [] →
        fs.existsAsFile p = false → applyPreset fs i p = (false, i))
    ∧ (∀ (fs : FS) (i : InstanceState) (p : List Char), p ≠ [] →
        fs.existsAsFile p = true → fs.loadFileAsData p = none →
        applyPreset fs i p = (false, i))
    ∧ (∀ (fs : FS) (i : InstanceState) (p : List Char) (d : List UInt8), p ≠ [] →
        fs.existsAsFile p = true → fs.loadFileAsData p = some d →
        applyPreset fs i p = (true, { stateCalls := i.stateCalls ++ [d] })) := by
  refine ⟨fun fs i => rfl, fun fs i p hp he => ?_, fun fs i p hp he hr => ?_,
    fun fs i p d hp he hr => ?_⟩
  · simp [applyPreset, hp, he]
  · simp [applyPreset, hp, he, hr]
  · simp [applyPreset, hp, he, hr, setStateInformation]

/-- A concrete filesystem used by witnesses: a single readable preset file
named p holding bytes 1, 2, 3, and a distinct name g that exists but cannot
be read. -/
def fsEx : FS :=
  { existsAsFile := fun s => s = ("p").data ∨ s = ("g").data
    loadFileAsData := fun s => if s = ("p").data then some [1, 2, 3] else none }

/-- Witness for C5 at concrete inputs. -/
theorem c5_witness :
    applyPreset fsEx { stateCalls := [] } [] = (true, { stateCalls := [] })
    ∧ applyPreset fsEx { stateCalls := [] } ("q").data = (false, { stateCalls := [] })
    ∧ applyPreset fsEx { stateCalls := [] } ("g").data = (false, { stateCalls := [] })
    ∧ applyPreset fsEx { stateCalls := [] } ("p").data =
        (true, { stateCalls := [[1, 2, 3]] }) := by
  refine ⟨c5_apply_preset.1 fsEx _, ?_, ?_, ?_⟩
  · exact c5_apply_preset.2.1 fsEx _ _ (by decide) (by decide)
  · exact c5_apply_preset.2.2.1 fsEx _ _ (by decide) (by decide) (by decide)
  · exact c5_apply_preset.2.2.2 fsEx _ _ [1, 2, 3] (by decide) (by decide) (by decide)

/-- Closed form of the render-loop segmentation: total/B full blocks of B
frames followed by one block of total mod B frames when that is nonzero. -/
lemma renderSegments_closed (B : Nat) (hB : 0 < B) :
    ∀ total, renderSegments B total =
      List.replicate (total / B) B ++
        (if total % B = 0 then [] else [total % B]) := by
  intro total
  induction total using Nat.strong_induction_on with
  | _ total ih =>
    match total with
    | 0 => simp [renderSegments]
    | r + 1 =>
      rw [renderSegments]
      have hBne : ¬(B = 0) := by omega
      rw [if_neg hBne]
      by_cases hlt : r + 1 < B
      · have hmin : min B (r + 1) = r + 1 := by omega
        have hdiv : (r + 1) / B = 0 := Nat.div_eq_of_lt hlt
        have hmod : (r + 1) % B = r + 1 := Nat.mod_eq_of_lt hlt
        rw [hmin, hdiv, hmod]
        simp [renderSegments]
      · have hmin : min B (r + 1) = B := by omega
        have ht : r + 1 - B + B = r + 1 := by omega
        have hrec := ih (r + 1 - B) (by omega)
        rw [hmin, hrec]
        have hdiv : (r + 1) / B = (r + 1 - B) / B + 1 := by
          conv_lhs => rw [← ht]
          rw [Nat.add_div_right _ hB]
        have hmod : (r + 1) % B = (r + 1 - B) % B := by
          conv_lhs => rw [← ht]
          rw [Nat.add_mod_right]
        rw [hdiv, hmod, List.replicate_succ]
        simp

/-- The start positions attached by withStarts project away to the
original segment list. -/
lemma withStarts_snd : ∀ (pos : Nat) (l : List Nat),
    (withStarts pos l).map Prod.snd = l := by
  intro pos l
  induction l generalizing pos with
  | nil => rfl
  | cons x rest ih => simp [withStarts, ih]

/-- The render loop writes, in order, exactly the chain-processed read of
each scheduled segment: the output appended at every iteration is the
buffer read at that segment start, passed through the instances, together
with the segment length. -/
lemma renderLoop_eq_schedule {β : Type} (proc : InstanceState → β → β)
    (read : Nat → Nat → β) (instances : List InstanceState) (B total : Nat) :
    ∀ position, renderLoop proc read instances B total position =
      (withStarts position (renderSegments B (total - position))).map
        (fun pl => (chainBlock proc instances (read pl.1 pl.2), pl.2)) := by
  suffices H : ∀ n position, total - position = n →
      renderLoop proc read instances B total position =
        (withStarts position (renderSegments B n)).map
          (fun pl => (chainBlock proc instances (read pl.1 pl.2), pl.2)) by
    intro position
    exact H (total - position) position rfl
  intro n
  induction n using Nat.strong_induction_on with
  | _ n ih =>
    intro position hpos
    cases n with
    | zero =>
      have hp : ¬(position < total) := by omega
      rw [renderLoop, dif_neg hp]
      simp [renderSegments, withStarts]
    | succ r =>
      have hp : position < total := by omega
      by_cases hB0 : B = 0
      · rw [renderLoop, dif_pos hp, dif_pos hB0]
        simp [renderSegments, hB0, withStarts]
      · rw [renderLoop, dif_pos hp, dif_neg hB0, hpos]
        rw [ih (r + 1 - min B (r + 1)) (by omega) (position + min B (r + 1))
          (by omega)]
        simp only [renderSegments, if_neg hB0, withStarts, List.map_cons]

/-- C2: with block size B > 0 the render loop processes ceil(total/B)
segments; every segment before the last is exactly B frames, the last is
total mod B frames when that is nonzero and B otherwise, the consumed
segment lengths sum to the total frame count, so the loop stops exactly
when the position reaches it; and the loop appends to the output, in
segment order, exactly the chain-processed buffer of each segment after
the whole chain has run on it, advancing the read position by each segment
length. -/
theorem c2_render_segments {β : Type} (proc : InstanceState → β → β)
    (read : Nat → Nat → β) (instances : List InstanceState)
    (B total : Nat) (hB : 0 < B) :
    (renderSegments B total).length = (total + B - 1) / B
    ∧ (∀ x ∈ (renderSegments B total).dropLast, x = B)
    ∧ (0 < total → (renderSegments B total).getLast? =
        some (if total % B = 0 then B else total % B))
    ∧ (renderSegments B total).sum = total
    ∧ (withStarts 0 (renderSegments B total)).map Prod.snd =
        renderSegments B total
    ∧ renderLoop proc read instances B total 0 =
        (withStarts 0 (renderSegments B total)).map
          (fun pl => (chainBlock proc instances (read pl.1 pl.2), pl.2)) := by
  have hclosed := renderSegments_closed B hB total
  have htotal := Nat.div_add_mod' total B
  refine ⟨?_, ?_, ?_, ?_, withStarts_snd 0 (renderSegments B total), ?_⟩
  · rw [hclosed]
    by_cases hmod : total % B = 0
    · rw [if_pos hmod]
      simp only [List.append_nil, List.length_replicate]
      have h1 : total + B - 1 = B * (total / B) + (B - 1) := by
        rw [Nat.mul_comm]; omega
      rw [h1, Nat.mul_add_div hB, Nat.div_eq_of_lt (show B - 1 < B by omega)]
      omega
    · rw [if_neg hmod]
      simp only [List.length_append, List.length_replicate, List.length_cons,
        List.length_nil]
      have hltB : total % B < B := Nat.mod_lt _ hB
      have h1 : total + B - 1 = B * (total / B) + (total % B - 1 + B) := by
        rw [Nat.mul_comm]; omega
      rw [h1, Nat.mul_add_div hB, Nat.add_div_right _ hB,
        Nat.div_eq_of_lt (show total % B - 1 < B by omega)]
  · intro x hx
    rw [hclosed] at hx
    by_cases hmod : total % B = 0
    · rw [if_pos hmod] at hx
      simp only [List.append_nil] at hx
      have := List.dropLast_sublist (List.replicate (total / B) B)
      have hx2 := this.mem hx
      exact List.eq_of_mem_replicate hx2
    · rw [if_neg hmod, List.dropLast_concat] at hx
      exact List.eq_of_mem_replicate hx
  · intro hpos
    rw [hclosed]
    by_cases hmod : total % B = 0
    · have hq : 0 < total / B := by
        rcases Nat.eq_zero_or_pos (total / B) with h | h
        · rw [h] at htotal; omega
        · exact h
      obtain ⟨k, hk⟩ := Nat.exists_eq_add_of_lt hq
      rw [if_pos hmod, if_pos hmod]
      simp only [List.append_nil]
      rw [hk, Nat.zero_add, List.replicate_succ', List.getLast?_concat]
    · rw [if_neg hmod, if_neg hmod, List.getLast?_concat]
  · rw [hclosed]
    by_cases hmod : total % B = 0
    · rw [if_pos hmod]
      simp only [List.append_nil, List.sum_replicate, smul_eq_mul]
      omega
    · rw [if_neg hmod]
      simp only [List.sum_append, List.sum_replicate, smul_eq_mul,
        List.sum_cons, List.sum_nil]
      omega
  · have h := renderLoop_eq_schedule proc read instances B total 0
    rw [Nat.sub_zero] at h
    exact h

/-- Witness for C2 at block size 3 and 7 total frames, with one live
instance counting the blocks it processes and a reader encoding position
and length. -/
theorem c2_witness :
    (renderSegments 3 7).length = (7 + 3 - 1) / 3
    ∧ (∀ x ∈ (renderSegments 3 7).dropLast, x = 3)
    ∧ (0 < 7 → (renderSegments 3 7).getLast? =
        some (if 7 % 3 = 0 then 3 else 7 % 3))
    ∧ (renderSegments 3 7).sum = 7
    ∧ (withStarts 0 (renderSegments 3 7)).map Prod.snd = renderSegments 3 7
    ∧ renderLoop (fun _ b => b + 1) (fun p l => p * 10 + l) [{}] 3 7 0 =
        (withStarts 0 (renderSegments 3 7)).map
          (fun pl =>
            (chainBlock (fun _ b => b + 1) [{}] (pl.1 * 10 + pl.2), pl.2)) :=
  c2_render_segments (fun _ b => b + 1) (fun p l => p * 10 + l) [{}] 3 7
    (by decide)

/-- C9: supplying any value v to the block option yields a block size of
max 64 (parsed v) while the success of parsing is unaffected by v, omitting
the option leaves the default of 512, and the concrete value 10 is clamped
up to 64, not rejected. -/
theorem c9_block_size :
    (∀ prog inp out ch v : List Char,
      parseArgs getIntValueJuce
          [prog, ("--input").data, inp, ("--output").data, out,
            ("--chain").data, ch, ("--block").data, v] =
        ({ input := inp, output := out, chain := ch,
           blockSize := max 64 (getIntValueJuce v) },
         !inp.isEmpty && !out.isEmpty && !ch.isEmpty))
    ∧ (∀ prog inp out ch : List Char,
      parseArgs getIntValueJuce
          [prog, ("--input").data, inp, ("--output").data, out,
            ("--chain").data, ch] =
        ({ input := inp, output := out, chain := ch, blockSize := 512 },
         !inp.isEmpty && !out.isEmpty && !ch.isEmpty))
    ∧ getIntValueJuce ("10").data = 10
    ∧ (parseArgs getIntValueJuce
        [("prog").data, ("--input").data, ("i").data, ("--output").data,
          ("o").data, ("--chain").data, ("c").data, ("--block").data,
          ("10").data]).1.blockSize = 64 := by
  refine ⟨fun prog inp out ch v => rfl, fun prog inp out ch => rfl,
    by decide, by decide⟩

/-- C4: when no backend yields any plugin type for a file the load fails
with the error message naming the file and produces no instance, and when
types were found the instance is created from the first discovered type
(later types are never consulted): the result is determined by the head of
the type list alone. -/
theorem c4_first_type {T I : Type} (formats : List (FormatBackend T))
    (createInstance : T → Option I) (createError : List Char)
    (prepareInstance : I → I) (file : List Char) :
    (resolveTypes formats file = [] →
      loadPlugin formats createInstance createError prepareInstance file =
        .error (("No plugin types found for ").data ++ file))
    ∧ (∀ t rest, resolveTypes formats file = t :: rest →
        (∀ i, createInstance t = some i →
          loadPlugin formats createInstance createError prepareInstance file =
            .ok (prepareInstance i))
        ∧ (createInstance t = none →
          loadPlugin formats createInstance createError prepareInstance file =
            .error createError)) := by
  refine ⟨fun h => ?_, fun t rest h => ⟨fun i hi => ?_, fun hn => ?_⟩⟩
  · simp [loadPlugin, h]
  · simp [loadPlugin, h, hi]
  · simp [loadPlugin, h, hn]

/-- A backend used by witnesses: it accepts every file and reports the two
types 5 and 7 for it. -/
def backendEx : FormatBackend Nat :=
  { fileMightContainThisPluginType := fun _ => true
    findAllTypesForFile := fun _ => [5, 7] }

/-- Witness for C4: with no backends the load fails with the naming error,
and with a backend reporting types 5 then 7 the instance is built from 5,
the first discovered type. -/
theorem c4_witness :
    loadPlugin ([] : List (FormatBackend Nat)) (fun t => some t) [] (fun i => i + 1)
        ("f").data =
      .error (("No plugin types found for ").data ++ ("f").data)
    ∧ loadPlugin [backendEx] (fun t => some t) [] (fun i => i + 1) ("f").data =
      .ok 6 :=
  ⟨(c4_first_type [] (fun t => some t) [] (fun i => i + 1) ("f").data).1 (by decide),
   ((c4_first_type [backendEx] (fun t => some t) [] (fun i => i + 1)
      ("f").data).2 5 [7] (by decide)).1 5 (by decide)⟩

/-- C7: when the output extension matches no registered format the writer
falls back to the wave format when that lookup succeeds; when neither the
extension nor the wave fallback yields a format, writer setup fails with
exit code 6; and whenever a format was selected and the backend produces a
writer, setup succeeds with that writer. -/
theorem c7_writer_fallback {F W α : Type} (lookup : List Char → Option F)
    (create : F → WriterConfig α → Option W) (ext : List Char)
    (r : ReaderInfo α) :
    (∀ f, lookup ext = none → lookup wavExt = some f →
      selectOutputFormat lookup ext = some f)
    ∧ (lookup ext = none → lookup wavExt = none →
      setupWriter lookup create ext r = .error 6)
    ∧ (∀ f w, selectOutputFormat lookup ext = some f →
        create f (writerConfigOf r) = some w →
        setupWriter lookup create ext r = .ok w) := by
  refine ⟨fun f h1 h2 => ?_, fun h1 h2 => ?_, fun f w h1 h2 => ?_⟩
  · simp [selectOutputFormat, h1, h2]
  · simp [setupWriter, selectOutputFormat, h1, h2]
  · simp [setupWriter, h1, h2]

/-- A format registry used by witnesses: only the wave extension has a
format, numbered 1. -/
def lookupEx : List Char → Option Nat :=
  fun e => if e = wavExt then some 1 else none

/-- A format registry used by witnesses that has no formats at all. -/
def lookupNoneEx : List Char → Option Nat := fun _ => none

/-- A writer backend used by witnesses: the writer records the chosen
format and the requested bit depth. -/
def createEx : Nat → WriterConfig Nat → Option (Nat × Nat) :=
  fun f c => some (f, c.bitsPerSample)

/-- A reader used by witnesses: 44100 Hz, 2 channels, 24-bit input,
1000 frames. -/
def readerEx : ReaderInfo Nat :=
  { sampleRate := 44100, numChannels := 2, bitsPerSample := 24
    lengthInSamples := 1000 }

/-- Witness for C7: an unmatched ogg extension falls back to the wave
format, a registry with no formats fails with exit code 6, and the
fallback format yields the writer. -/
theorem c7_witness :
    selectOutputFormat lookupEx ("ogg").data = some 1
    ∧ setupWriter lookupNoneEx createEx ("ogg").data readerEx = .error 6
    ∧ setupWriter lookupEx createEx ("ogg").data readerEx = .ok (1, 16) :=
  ⟨(c7_writer_fallback lookupEx createEx ("ogg").data readerEx).1 1
      (by decide) (by decide),
   (c7_writer_fallback lookupNoneEx createEx ("ogg").data readerEx).2.1
      (by decide) (by decide),
   (c7_writer_fallback lookupEx createEx ("ogg").data readerEx).2.2 1 (1, 16)
      (by decide) (by decide)⟩

/-- C10: whenever writer setup succeeds, the writer was created from the
selected format with exactly the reader sample rate, the reader channel
count and a bit depth of 16; and the outcome is unchanged under any input
bit depth, which never reaches the writer. -/
theorem c10_writer_config {F W α : Type} (lookup : List Char → Option F)
    (create : F → WriterConfig α → Option W) (ext : List Char)
    (r : ReaderInfo α) (w : W)
    (h : setupWriter lookup create ext r = .ok w) :
    (∃ f, selectOutputFormat lookup ext = some f ∧
      create f { sampleRate := r.sampleRate, numChannels := r.numChannels,
                 bitsPerSample := 16 } = some w)
    ∧ ∀ b, setupWriter lookup create ext
        { r with bitsPerSample := b } = .ok w := by
  constructor
  · have h2 := h
    unfold setupWriter at h2
    cases hsel : selectOutputFormat lookup ext with
    | none => rw [hsel] at h2; exact absurd h2 (by simp)
    | some f =>
      rw [hsel] at h2
      simp only [] at h2
      cases hc : create f (writerConfigOf r) with
      | none => rw [hc] at h2; exact absurd h2 (by simp)
      | some w2 =>
        rw [hc] at h2
        simp only [Except.ok.injEq] at h2
        rw [h2] at hc
        exact ⟨f, rfl, hc⟩
  · intro b
    unfold setupWriter
    have hcfg : writerConfigOf { r with bitsPerSample := b } = writerConfigOf r :=
      rfl
    rw [hcfg]
    exact h

/-- Witness for C10: a 24-bit reader still yields a 16-bit writer request,
and changing the reader bit depth leaves the writer unchanged. -/
theorem c10_witness :
    (∃ f, selectOutputFormat lookupEx ("ogg").data = some f ∧
      createEx f { sampleRate := readerEx.sampleRate,
                   numChannels := readerEx.numChannels,
                   bitsPerSample := 16 } = some (1, 16))
    ∧ ∀ b, setupWriter lookupEx createEx ("ogg").data
        { readerEx with bitsPerSample := b } = .ok (1, 16) :=
  c10_writer_config lookupEx createEx ("ogg").data readerEx (1, 16) rfl

/-- A wrapped string of length at least 2 is unquoted: the quote characters
are stripped and the inside is trimmed again. -/
lemma unquote_wrapped (q : Char) (u : List Char) :
    unquoteWith q (q :: u ++ [q]) = trimChars u := by
  have hcond : 2 ≤ (q :: u ++ [q]).length ∧ (q :: u ++ [q]).head? = some q
      ∧ (q :: u ++ [q]).getLast? = some q := by
    refine ⟨by simp, rfl, ?_⟩
    rw [show (q :: u ++ [q]) = (q :: u) ++ [q] from rfl, List.getLast?_concat]
  unfold unquoteWith
  rw [if_pos hcond]
  have h1 : (q :: u ++ [q]).drop 1 = u ++ [q] := rfl
  have h2 : (q :: u ++ [q]).length - 2 = u.length := by simp
  rw [h1, h2, List.take_left]

/-- A string that does not start with the quote character is left alone by
the unquoting step. -/
lemma unquote_skip (q : Char) (s : List Char) (h : s.head? ≠ some q) :
    unquoteWith q s = s := by
  unfold unquoteWith
  rw [if_neg]
  rintro ⟨-, h2, -⟩
  exact h h2

/-- C8: a manifest path value is trimmed, a value fully wrapped in matching
double or single quotes is unquoted, an absolute cleaned path is resolved
by itself without consulting the base directory, a relative cleaned path is
resolved as a child of the manifest directory, and loadChain applies this
resolution with the manifest directory as base. -/
theorem c8_resolve_path (isAbsolutePath : List Char → Bool)
    (fullPathOf : List Char → List Char)
    (childPathOf : List Char → List Char → List Char)
    (baseDir s u : List Char) (e : RawEntry) :
    ((trimChars s).head? ≠ some dquoteChar →
      (trimChars s).head? ≠ some squoteChar → cleanPath s = trimChars s)
    ∧ (trimChars s = dquoteChar :: u ++ [dquoteChar] →
        cleanPath s = unquoteWith squoteChar (trimChars u))
    ∧ (trimChars s = squoteChar :: u ++ [squoteChar] →
        cleanPath s = trimChars u)
    ∧ (isAbsolutePath (cleanPath s) = true →
        resolvePath isAbsolutePath fullPathOf childPathOf baseDir s =
          fullPathOf (cleanPath s))
    ∧ (isAbsolutePath (cleanPath s) = false →
        resolvePath isAbsolutePath fullPathOf childPathOf baseDir s =
          childPathOf baseDir (cleanPath s))
    ∧ (e.path ≠ [] → isAbsolutePath (cleanPath e.path) = false →
        (entrySlot isAbsolutePath fullPathOf childPathOf baseDir e).pluginPath =
          childPathOf baseDir (cleanPath e.path)) := by
  refine ⟨fun h1 h2 => ?_, fun h => ?_, fun h => ?_, fun h => ?_, fun h => ?_,
    fun h1 h2 => ?_⟩
  · rw [cleanPath, unquote_skip dquoteChar _ h1, unquote_skip squoteChar _ h2]
  · rw [cleanPath, h, unquote_wrapped]
  · rw [cleanPath, h, unquote_skip dquoteChar _ (by simp; decide),
      unquote_wrapped]
  · simp [resolvePath, h]
  · simp [resolvePath, h]
  · simp only [entrySlot, ne_eq, h1, not_false_iff, if_true]
    simp [resolvePath, h2]

/-- A File::isAbsolutePath model used by witnesses: a path is absolute when
it starts with a separator. -/
def iAbsEx : List Char → Bool := fun c => c.head? == some '/'

/-- A getChildFile model used by witnesses: append with a separator. -/
def childEx : List Char → List Char → List Char := fun b c => b ++ '/' :: c

/-- Witness for C8: a double-quoted absolute path with surrounding blanks
is trimmed, unquoted and kept as-is, and a bare relative entry path is
resolved under the manifest directory. -/
theorem c8_witness :
    cleanPath (' ' :: dquoteChar :: '/' :: 'a' :: [dquoteChar]) =
      unquoteWith squoteChar (trimChars ['/', 'a'])
    ∧ resolvePath iAbsEx (fun p => p) childEx ("d").data
        (' ' :: dquoteChar :: '/' :: 'a' :: [dquoteChar]) = ['/', 'a']
    ∧ cleanPath (squoteChar :: 'x' :: [squoteChar]) = ['x']
    ∧ (entrySlot iAbsEx (fun p => p) childEx ("d").data
        { path := ['x'], preset := [], bypass := false }).pluginPath =
      ('d' :: '/' :: ['x']) :=
  ⟨(c8_resolve_path iAbsEx (fun p => p) childEx ("d").data
      (' ' :: dquoteChar :: '/' :: 'a' :: [dquoteChar]) ['/', 'a']
      { path := ['x'] }).2.1 (by decide),
   ((c8_resolve_path iAbsEx (fun p => p) childEx ("d").data
      (' ' :: dquoteChar :: '/' :: 'a' :: [dquoteChar]) ['/', 'a']
      { path := ['x'] }).2.2.2.1 (by decide)).trans (by decide),
   ((c8_resolve_path iAbsEx (fun p => p) childEx ("d").data
      (squoteChar :: 'x' :: [squoteChar]) ['x']
      { path := ['x'] }).2.2.1 (by decide)).trans (by decide),
   ((c8_resolve_path iAbsEx (fun p => p) childEx ("d").data
      (squoteChar :: 'x' :: [squoteChar]) ['x']
      { path := ['x'] }).2.2.2.2.2 (by decide) (by decide)).trans (by decide)⟩

/-- Folding over a filterMap is folding over the original list, acting only
at elements the partial map keeps. -/
lemma foldl_filterMap {α β γ : Type} (f : α → Option β) (g : γ → β → γ) :
    ∀ (l : List α) (b : γ),
      (l.filterMap f).foldl g b =
        l.foldl (fun buf x => (f x).elim buf (fun y => g buf y)) b := by
  intro l
  induction l with
  | nil => intro b; rfl
  | cons x rest ih =>
    intro b
    cases hf : f x with
    | none => simp [List.filterMap_cons, hf, ih]
    | some y => simp [List.filterMap_cons, hf, ih]

/-- When the partial map keeps every element, the filterMap is pointwise
related to the original list in order. -/
lemma filterMap_forall2 {α β : Type} (f : α → Option β) :
    ∀ l : List α, (∀ x ∈ l, (f x).isSome = true) →
      List.Forall₂ (fun x y => f x = some y) l (l.filterMap f) := by
  intro l
  induction l with
  | nil => intro _; exact List.Forall₂.nil
  | cons x rest ih =>
    intro h
    obtain ⟨y, hy⟩ := Option.isSome_iff_exists.mp (h x (by simp))
    have hrest := ih (fun z hz => h z (List.mem_cons_of_mem _ hz))
    simp only [List.filterMap_cons, hy]
    exact List.Forall₂.cons hy hrest

/-- When every non-bypassed slot loads, the chain-setup loop succeeds and
its instance list is exactly the per-slot instance of each live slot. -/
lemma setupChain_all_loaded (fs : FS) (load : List Char → Option InstanceState) :
    ∀ slots : List ChainSlot,
      (∀ s ∈ slots, s.bypass = false → (load s.pluginPath).isSome = true) →
      ∃ warns, setupChain fs load slots =
        .ok ((liveSlots slots).filterMap (slotInst fs load), warns) := by
  intro slots
  induction slots with
  | nil => intro _; exact ⟨[], rfl⟩
  | cons s rest ih =>
    intro h
    obtain ⟨w, hw⟩ := ih (fun t ht hb => h t (List.mem_cons_of_mem _ ht) hb)
    by_cases hb : s.bypass
    · refine ⟨w, ?_⟩
      have hlive : liveSlots (s :: rest) = liveSlots rest := by
        simp [liveSlots, List.filter_cons, hb]
      rw [hlive]
      simpa [setupChain, hb] using hw
    · have hb2 : s.bypass = false := by simpa using hb
      obtain ⟨i, hi⟩ := Option.isSome_iff_exists.mp (h s (by simp) hb2)
      have hlive : liveSlots (s :: rest) = s :: liveSlots rest := by
        simp [liveSlots, List.filter_cons, hb2]
      have hinst : slotInst fs load s =
          some (if s.presetPath ≠ [] then (applyPreset fs i s.presetPath).2
                else i) := by
        simp [slotInst, hi]
      refine ⟨(if s.presetPath ≠ [] then
          (if (applyPreset fs i s.presetPath).1 then []
           else [presetWarning s.presetPath]) else []) ++ w, ?_⟩
      rw [hlive, List.filterMap_cons, hinst]
      by_cases hp : s.presetPath = []
      · simp [setupChain, hb2, hi, hw, hp]
      · simp [setupChain, hb2, hi, hw, hp]

/-- C1: when every non-bypassed slot of the manifest loads successfully,
chain setup produces exactly one live instance per non-bypassed slot,
pointwise in the order the slots were declared (bypassed slots contribute
nothing), and every rendered block passes through those instances in
exactly that order. -/
theorem c1_live_instances (fs : FS) (load : List Char → Option InstanceState)
    (slots : List ChainSlot)
    (h : ∀ s ∈ slots, s.bypass = false → (load s.pluginPath).isSome = true) :
    ∃ warns,
      setupChain fs load slots =
        .ok ((liveSlots slots).filterMap (slotInst fs load), warns)
      ∧ List.Forall₂ (fun s i => slotInst fs load s = some i) (liveSlots slots)
          ((liveSlots slots).filterMap (slotInst fs load))
      ∧ ((liveSlots slots).filterMap (slotInst fs load)).length =
          (liveSlots slots).length
      ∧ ∀ (β : Type) (proc : InstanceState → β → β) (b : β),
          chainBlock proc ((liveSlots slots).filterMap (slotInst fs load)) b =
            (liveSlots slots).foldl
              (fun buf s => (slotInst fs load s).elim buf
                (fun i => proc i buf)) b := by
  have hlive : ∀ s ∈ liveSlots slots, (slotInst fs load s).isSome = true := by
    intro s hs
    obtain ⟨hmem, hbp⟩ := List.mem_filter.mp hs
    obtain ⟨i, hi⟩ :=
      Option.isSome_iff_exists.mp (h s hmem (by simpa using hbp))
    simp [slotInst, hi]
  obtain ⟨w, hw⟩ := setupChain_all_loaded fs load slots h
  have hf2 := filterMap_forall2 (slotInst fs load) (liveSlots slots) hlive
  refine ⟨w, hw, hf2, hf2.length_eq.symm, fun β proc b => ?_⟩
  simpa [chainBlock] using
    foldl_filterMap (slotInst fs load) (fun buf i => proc i buf)
      (liveSlots slots) b

/-- A plugin loader used by witnesses: only the path a yields an instance,
which starts in its default state. -/
def loadEx : List Char → Option InstanceState :=
  fun p => if p = ("a").data then some {} else none

/-- Slots used by witnesses: one live slot and one bypassed slot, both with
valid plugin paths. -/
def slotsEx : List ChainSlot :=
  [{ pluginPath := ("a").data }, { pluginPath := ("a").data, bypass := true }]

/-- Witness for C1 at a concrete manifest with one live and one bypassed
slot. -/
theorem c1_witness :
    ∃ warns,
      setupChain fsEx loadEx slotsEx =
        .ok ((liveSlots slotsEx).filterMap (slotInst fsEx loadEx), warns)
      ∧ List.Forall₂ (fun s i => slotInst fsEx loadEx s = some i)
          (liveSlots slotsEx)
          ((liveSlots slotsEx).filterMap (slotInst fsEx loadEx))
      ∧ ((liveSlots slotsEx).filterMap (slotInst fsEx loadEx)).length =
          (liveSlots slotsEx).length
      ∧ ∀ (β : Type) (proc : InstanceState → β → β) (b : β),
          chainBlock proc
              ((liveSlots slotsEx).filterMap (slotInst fsEx loadEx)) b =
            (liveSlots slotsEx).foldl
              (fun buf s => (slotInst fsEx loadEx s).elim buf
                (fun i => proc i buf)) b :=
  c1_live_instances fsEx loadEx slotsEx (by decide)

/-- C6: for a non-bypassed slot naming a preset file that does not exist,
the loaded instance is carried into the chain completely unchanged (its
state-restore entry point is never invoked), the preset warning is emitted,
and chain setup continues with the remaining slots instead of aborting. -/
theorem c6_missing_preset_warns (fs : FS)
    (load : List Char → Option InstanceState) (s : ChainSlot)
    (rest : List ChainSlot) (i : InstanceState)
    (hb : s.bypass = false) (hp : s.presetPath ≠ [])
    (he : fs.existsAsFile s.presetPath = false)
    (hl : load s.pluginPath = some i) :
    setupChain fs load (s :: rest) =
      (setupChain fs load rest).map
        (fun x => (i :: x.1, presetWarning s.presetPath :: x.2)) := by
  have ha : applyPreset fs i s.presetPath = (false, i) := by
    simp [applyPreset, hp, he]
  cases hr : setupChain fs load rest with
  | error c => simp [setupChain, hb, hl, hp, ha, hr, Except.map]
  | ok lw => simp [setupChain, hb, hl, hp, ha, hr, Except.map]

/-- A chain slot used by the C6 witness: a valid plugin path with a preset
path that does not exist in the witness filesystem. -/
def slotMissingPresetEx : ChainSlot :=
  { pluginPath := ("a").data, presetPath := ("q").data, bypass := false }

/-- Witness for C6: the missing preset q leaves the loaded instance in its
default state, contributes the warning, and setup still succeeds for the
remaining empty chain. -/
theorem c6_witness :
    setupChain fsEx loadEx [slotMissingPresetEx] =
      (setupChain fsEx loadEx []).map
        (fun x => (({} : InstanceState) :: x.1,
          presetWarning (("q").data) :: x.2)) :=
  c6_missing_preset_warns fsEx loadEx slotMissingPresetEx [] {}
    (by decide) (by decide) (by decide) (by decide)

/-- The slot-accumulation loop of loadChain keeps its accumulator unchanged
when every object entry of the plugins array has an empty raw path. -/
lemma chain_foldl_no_paths (isAbsolutePath : List Char → Bool)
    (fullPathOf : List Char → List Char)
    (childPathOf : List Char → List Char → List Char) (baseDir : List Char) :
    ∀ (entries : List (Option RawEntry)) (acc : List ChainSlot),
      (∀ e ∈ entries, ∀ r, e = some r → r.path = []) →
      entries.foldl
        (fun acc e? =>
          match e? with
          | none => acc
          | some e =>
            if (entrySlot isAbsolutePath fullPathOf childPathOf baseDir
                  e).pluginPath ≠ [] then
              acc ++ [entrySlot isAbsolutePath fullPathOf childPathOf baseDir e]
            else acc) acc = acc := by
  intro entries
  induction entries with
  | nil => intro acc _; rfl
  | cons e? rest ih =>
    intro acc h
    cases e? with
    | none =>
      simp only [List.foldl_cons]
      exact ih acc (fun x hx => h x (List.mem_cons_of_mem _ hx))
    | some r =>
      have hp : r.path = [] := h (some r) (by simp) r rfl
      have hcond :
          ¬((entrySlot isAbsolutePath fullPathOf childPathOf baseDir
              r).pluginPath ≠ []) := by
        simp [entrySlot, hp]
      simp only [List.foldl_cons]
      rw [if_neg hcond]
      exact ih acc (fun x hx => h x (List.mem_cons_of_mem _ hx))

/-- C3 counterexample: a manifest whose only slot is bypassed but has a
valid plugin path resolves successfully (it is not a manifest error),
because loadChain filters only entries without plugin paths and never
consults the bypass flag. -/
theorem c3_counterexample :
    loadChain iAbsEx (fun p => p) childEx ("d").data
        (.plugins [some { path := ("a").data, preset := [], bypass := true }])
      = .ok [{ pluginPath := 'd' :: '/' :: ("a").data, presetPath := [],
               bypass := true }] := rfl

/-- C3 as amended: an empty plugins array, or one whose object entries all
lack plugin paths, fails manifest resolution with exit code 4 before any
load is attempted (the outcome is the same for every loader); a chain whose
slots are all bypassed instead resolves and then produces zero instances,
with no load attempted (again for every loader). -/
theorem c3_amended (isAbsolutePath : List Char → Bool)
    (fullPathOf : List Char → List Char)
    (childPathOf : List Char → List Char → List Char)
    (baseDir : List Char) (fs : FS) :
    (∀ load, chainPhase isAbsolutePath fullPathOf childPathOf baseDir fs load
        (.plugins []) = .error 4)
    ∧ (∀ entries, (∀ e ∈ entries, ∀ r, e = some r → r.path = []) →
        ∀ load, chainPhase isAbsolutePath fullPathOf childPathOf baseDir fs load
          (.plugins entries) = .error 4)
    ∧ (∀ slots, (∀ s ∈ slots, s.bypass = true) →
        ∀ load, setupChain fs load slots = .ok ([], [])) := by
  refine ⟨fun load => rfl, fun entries h load => ?_, fun slots h load => ?_⟩
  · cases entries with
    | nil => rfl
    | cons e rest =>
      have hfold := chain_foldl_no_paths isAbsolutePath fullPathOf childPathOf
        baseDir (e :: rest) [] h
      simp only [chainPhase, loadChain, List.isEmpty_cons, Bool.false_eq_true,
        if_false]
      rw [hfold]
      rfl
  · induction slots with
    | nil => rfl
    | cons s rest ih =>
      have hb : s.bypass = true := h s (by simp)
      have hr := ih (fun t ht => h t (List.mem_cons_of_mem _ ht))
      simpa [setupChain, hb] using hr

/-- Witness for C3 as amended: the all-empty-path manifest fails with exit
code 4 and an all-bypassed chain yields zero instances, under the concrete
witness collaborators. -/
theorem c3_witness :
    chainPhase iAbsEx (fun p => p) childEx ("d").data fsEx loadEx
        (.plugins [some { path := [], preset := ("p").data, bypass := false },
          none]) = .error 4
    ∧ setupChain fsEx loadEx
        [{ pluginPath := ("a").data, presetPath := [], bypass := true }] =
      .ok ([], []) :=
  ⟨(c3_amended iAbsEx (fun p => p) childEx ("d").data fsEx).2.1
      [some { path := [], preset := ("p").data, bypass := false }, none]
      (by decide) loadEx,
   (c3_amended iAbsEx (fun p => p) childEx ("d").data fsEx).2.2
      [{ pluginPath := ("a").data, presetPath := [], bypass := true }]
      (by decide) loadEx⟩
